import Mathlib

/-!
Verification development for the armonia_api retrieval-and-answer-synthesis
pipeline.  The TypeScript sources are shallowly embedded as Lean definitions:

* JavaScript strings are Lean `String`s (the texts exercised are ASCII, so
  UTF-16 code units coincide with characters); `string | null | undefined`
  is `Option String`, and JS truthiness of a string is "some and nonempty".
* JavaScript numbers that only ever hold exact values are `ℚ`; where the
  code branches on `Number.isFinite` the type `JSNum` adds the non-finite
  values (`nan`, `posInf`, `negInf`).
* The `kb_documents` table is a list of rows in insertion order; SQL
  `WHERE`/`DELETE` clauses become list filters and `ORDER BY ... LIMIT`
  becomes a stable sort followed by `take` (ties in Postgres are in fact
  arbitrary; the spec allows insertion-order tie-breaking).
* pgvector's `<->` operator is Euclidean distance: sorting by it is modelled
  by sorting on the *squared* distance, an order-equivalent rational.
  pgvector's `<=>` is cosine distance, so the SQL score
  `1 - (embedding <=> q)` is the cosine similarity `dot e q / sqrt (|e|²|q|²)`;
  it is represented exactly by the pair `(dot e q, |e|² * |q|²)` (`Score`),
  and compared through the strictly monotone rational key
  `sign d * d² / p` (`scoreKey`), so all order-sensitive behaviour is
  decidable.  `scoreKey_lt_iff_real` below proves that this key order agrees
  with the real-valued cosine similarity.
* Network-bound collaborators (embedding provider, LLM invocation, web
  search, the document-name lookup and the config row) are oracles stored in
  an `Env` record; an oracle returning `none` models a thrown exception.
-/

/-! ## JavaScript value modelling -/

/-- JS truthiness of a `string | null | undefined` value: `null`, `undefined`
and the empty string are falsy. -/
def jsStrTruthy : Option String → Bool
  | none => false
  | some s => !(s == "")

/-- JS `a || b` on two nullable strings: yields `a` when truthy, else `b`. -/
def jsOr (a b : Option String) : Option String :=
  if jsStrTruthy a then a else b

/-- JS `a || b` where `b` is a (truthy) string literal default. -/
def jsOrStr (a : Option String) (b : String) : String :=
  match a with
  | some s => if s == "" then b else s
  | none => b

/-- A JavaScript number as far as the embedded code observes it: an exact
finite value or one of the non-finite values. -/
inductive JSNum where
  | finite (q : ℚ)
  | nan
  | posInf
  | negInf
deriving DecidableEq

/-- `Number.isFinite`. -/
def JSNum.isFinite : JSNum → Bool
  | .finite _ => true
  | _ => false

/-- The JS comparison `x <= 0`  (`NaN <= 0` and `Infinity <= 0` are false). -/
def JSNum.le0 : JSNum → Bool
  | .finite q => q ≤ 0
  | .nan => false
  | .posInf => false
  | .negInf => true

/-- `ToIntegerOrInfinity` truncation used by `String.prototype.slice`,
restricted to the finite-positive branch in which the code calls it
(truncation toward zero of a positive rational is its floor). -/
def JSNum.truncToNat : JSNum → ℕ
  | .finite q => (⌊q⌋).toNat
  | _ => 0

/-- JS `s.slice(0, n)` for a nonnegative integer `n`: the first `n` code
units of the string. -/
def jsSlice (s : String) (n : ℕ) : String :=
  String.mk (s.data.take n)

/-- First-seen deduplication, the order observed for
`Array.from(new Set(xs))`. -/
def dedupKeepFirst : List String → List String → List String
  | [], _ => []
  | x :: xs, seen =>
    if seen.contains x then dedupKeepFirst xs seen
    else x :: dedupKeepFirst xs (x :: seen)

/-- `Array.from(new Set(kbIds)).filter(Boolean)`. -/
def uniqueTruthy (xs : List String) : List String :=
  (dedupKeepFirst xs []).filter (fun s => !(s == ""))

/-- JS `xs.slice(-n)`: the last `n` elements. -/
def takeLast {α : Type} (n : ℕ) (l : List α) : List α :=
  l.drop (l.length - n)

/-! ## Vectors and cosine-similarity scores -/

/-- An embedding vector with exact coordinates. -/
abbrev Vec := List ℚ

/-- Dot product (componentwise; the deployment fixes one dimension). -/
def dotQ (u v : Vec) : ℚ :=
  (List.zipWith (fun a b => a * b) u v).sum

/-- Squared Euclidean norm. -/
def sqnorm (u : Vec) : ℚ := dotQ u u

/-- Squared Euclidean distance, order-equivalent to pgvector's `<->`. -/
def sqDist (u v : Vec) : ℚ :=
  (List.zipWith (fun a b => (a - b) * (a - b)) u v).sum

/-- The SQL score `1 - (embedding <=> q)`, i.e. the cosine similarity
`d / sqrt p`, represented exactly by its numerator `d = dot e q` and the
radicand `p = |e|² * |q|²`. -/
abbrev Score := ℚ × ℚ

/-- The score of a stored embedding `e` against the query vector `q`. -/
def scoreOf (e q : Vec) : Score :=
  (dotQ e q, sqnorm e * sqnorm q)

/-- Strictly monotone rational key of a score: `sign d * d² / p` equals
`c * |c|` for the real cosine similarity `c = d / sqrt p`, so comparing keys
compares similarities (`scoreKey_lt_iff_real`). -/
def scoreKey (s : Score) : ℚ :=
  if 0 ≤ s.1 then s.1 ^ 2 / s.2 else -(s.1 ^ 2 / s.2)

/-- Key of an optional score, `none` standing for
`Number.NEGATIVE_INFINITY`. -/
def obKey : Option Score → WithBot ℚ
  | none => ⊥
  | some s => (scoreKey s : ℚ)

/-! ## Data model: chunks, rows, the kb_documents table -/

/-- Chunk metadata; fields absent from the JSON object are `none`
(the embedding does not distinguish absent from `null`). -/
structure Metadata where
  documentId : Option String := none
  fileName : Option String := none
  sourceUrl : Option String := none
  kbId : Option String := none
deriving DecidableEq

/-- A LangChain `Document`: page content plus metadata. -/
structure Doc where
  pageContent : String
  metadata : Metadata
deriving DecidableEq

/-- A row of the `kb_documents` table. -/
structure Row where
  kb_id : String
  content : String
  metadata : Metadata
  embedding : Vec
deriving DecidableEq

/-- The `kb_documents` table, in insertion order. -/
abbrev DB := List Row

/-- The `Document` built back from a row by the search (`SELECT content,
metadata`; the row's collection id is not part of the result). -/
def docOf (r : Row) : Doc :=
  { pageContent := r.content, metadata := r.metadata }

/-! ## PostgresVectorStore -/

/-- Stable ascending insertion by squared Euclidean distance to `q`:
the embedding of `ORDER BY embedding <-> $1` (Postgres may break ties
arbitrarily; insertion order is one admissible outcome). -/
def insertByDist (q : Vec) (x : Row) : List Row → List Row
  | [] => [x]
  | y :: ys =>
    if sqDist x.embedding q < sqDist y.embedding q then x :: y :: ys
    else y :: insertByDist q x ys

/-- Sort rows ascending by Euclidean distance to `q`. -/
def sortByDist (q : Vec) : List Row → List Row
  | [] => []
  | x :: xs => insertByDist q x (sortByDist q xs)

/-- The rows produced by
`SELECT ... FROM kb_documents WHERE kb_id = $2 ORDER BY embedding <-> $1 LIMIT $3`. -/
def searchRows (db : DB) (kbId : String) (q : Vec) (k : ℕ) : List Row :=
  ((sortByDist q (db.filter (fun r => r.kb_id == kbId))).take k)

/-- `PostgresVectorStore.similaritySearchVectorWithScore`: the selected rows
as `(Document, score)` pairs, the score being `1 - (embedding <=> $1)`. -/
def similaritySearchVectorWithScore (db : DB) (kbId : String) (q : Vec) (k : ℕ) :
    List (Doc × Score) :=
  (searchRows db kbId q k).map (fun r => (docOf r, scoreOf r.embedding q))

/-- `PostgresVectorStore.addVectors`: one `INSERT` per document, each row
tagged with the store's `kbId`.  (The TS loop indexes `vectors[i]` for
`i < documents.length`; `zipWith` models the length-matched case, the only
one that does not throw.) -/
def addVectors (db : DB) (kbId : String) (vectors : List Vec) (documents : List Doc) : DB :=
  db ++ List.zipWith
    (fun v d => { kb_id := kbId, content := d.pageContent, metadata := d.metadata,
                  embedding := v : Row })
    vectors documents

/-- `PostgresVectorStore.deleteByKnowledgeBase`:
`DELETE FROM kb_documents WHERE kb_id = $1`; the rows that remain. -/
def deleteByKnowledgeBase (db : DB) (kbId : String) : DB :=
  db.filter (fun r => !(r.kb_id == kbId))

/-- `RagService.deleteDocument`:
`DELETE FROM kb_documents WHERE kb_id = $1 AND (metadata->>'documentId') = $2`;
the rows that remain (a row with no `documentId` key yields SQL `NULL`,
which does not compare equal, so such rows are kept). -/
def deleteDocumentRows (db : DB) (kbId documentId : String) : DB :=
  db.filter (fun r => !(r.kb_id == kbId && r.metadata.documentId == some documentId))

/-! ## Prompt assembler (src/services/rag/ragPrompt.ts) -/

/-- `trimInstructions(promptInstructions, maxChars)`: `null` for empty input;
unchanged for non-finite or non-positive `maxChars`; else
`promptInstructions.slice(0, maxChars)`. -/
def trimInstructions (promptInstructions : Option String) (maxChars : JSNum) :
    Option String :=
  match promptInstructions with
  | none => none
  | some s =>
    if s == "" then none
    else if !maxChars.isFinite || maxChars.le0 then some s
    else some (jsSlice s maxChars.truncToNat)

/-- `buildSystemRules` (scoped mode, src/services/rag/ragPrompt.ts). -/
def buildSystemRules (trimmedInstructions : Option String) : String :=
  String.intercalate "\n\n"
    ((match trimmedInstructions with
      | some s =>
        if s == "" then [] else ["Knowledge base instructions:\n" ++ s]
      | none => []) ++
     ["You are a RAG assistant. Answer using ONLY the provided CONTEXT and the conversation history.",
      "Return the answer in Markdown ONLY.",
      "Do NOT add your own \"Sources\" section. The system will append canonical Sources separately."])

/-- `buildGlobalSystemRules` (no-collection mode). -/
def buildGlobalSystemRules (trimmedInstructions : Option String) : String :=
  String.intercalate "\n\n"
    ((match trimmedInstructions with
      | some s =>
        if s == "" then [] else ["Global instructions:\n" ++ s]
      | none => []) ++
     ["You are an assistant. The user has no knowledge base attached, so you must answer using general knowledge.",
      "If you are unsure, say so and ask a clarifying question. Do not invent citations.",
      "Return the answer in Markdown ONLY.",
      "Do NOT add your own \"Sources\" section. The system will append canonical Sources separately."])

/-- The role of a caller-supplied history item. -/
inductive ChatRole where
  | user
  | assistant
  | system
deriving DecidableEq

/-- A caller-supplied history item. -/
structure ChatHistoryItem where
  role : ChatRole
  content : String
deriving DecidableEq

/-- A LangChain message (System/AI/Human). -/
inductive Msg where
  | system (content : String)
  | ai (content : String)
  | human (content : String)
deriving DecidableEq

/-- `buildHistoryMessages`: last 12 items, falsy contents skipped, roles
mapped to message constructors (unknown roles become human messages). -/
def buildHistoryMessages (historyRaw : Option (List ChatHistoryItem)) : List Msg :=
  match historyRaw with
  | none => []
  | some items =>
    (takeLast 12 items).filterMap (fun item =>
      if item.content == "" then none
      else match item.role with
        | .system => some (.system item.content)
        | .assistant => some (.ai item.content)
        | .user => some (.human item.content))

/-- `buildMessages`: system rules, then history, then the context-and-question
user message. -/
def buildMessages (systemRules : String) (history : List Msg) (context question : String) :
    List Msg :=
  .system systemRules :: history ++
    [.human ("CONTEXT:\n\n" ++ context ++ "\n\nUSER QUESTION:\n" ++ question ++
      "\n\nRemember: output Markdown.")]

/-- `buildGlobalMessages`: same shape without a context block. -/
def buildGlobalMessages (systemRules : String) (history : List Msg) (question : String) :
    List Msg :=
  .system systemRules :: history ++
    [.human ("USER QUESTION:\n" ++ question ++ "\n\nRemember: output Markdown.")]

/-- The `_getType()` tag of a LangChain message. -/
def msgTypeName : Msg → String
  | .system _ => "system"
  | .ai _ => "ai"
  | .human _ => "human"

/-- The content of a message. -/
def msgContent : Msg → String
  | .system c => c
  | .ai c => c
  | .human c => c

/-- `formatMessagesForPrompt`: role-labelled lines for the flattened-text
fallback prompt. -/
def formatMessagesForPrompt (messages : List Msg) : String :=
  String.intercalate "\n" (messages.map (fun m => msgTypeName m ++ ": " ++ msgContent m))

/-! ## Source builder (src/services/rag/globalPrompt.ts, buildSources) -/

/-- `GLOBAL_FALLBACK_PROMPT_INSTRUCTIONS` (trimmed template literal). -/
def GLOBAL_FALLBACK_PROMPT_INSTRUCTIONS : String :=
  "You can use general knowledge and (when available) web search results.\n" ++
  "If a question is ambiguous, ask a clarifying question.\n" ++
  "If you are not confident, say so.\n" ++
  "Prefer official manufacturer docs and trustworthy sources."

/-- A citation entry `{idx, label}`. -/
structure RagSource where
  idx : ℕ
  label : String
deriving DecidableEq

/-- The `docId`, `fileName`, `sourceUrl` locals computed per chunk in
`buildSources` (`fileName` falls back to the document-name lookup when the
chunk has a truthy `documentId`). -/
def sourceFields (docNameMap : String → Option String) (md : Metadata) :
    Option String × Option String × Option String :=
  let docId := if jsStrTruthy md.documentId then md.documentId else none
  let fileName := jsOr md.fileName
    (match docId with
     | some d => docNameMap d
     | none => none)
  let sourceUrl := if jsStrTruthy md.sourceUrl then md.sourceUrl else none
  (docId, fileName, sourceUrl)

/-- The deduplication key `docId || sourceUrl || fileName || 'unknown'`. -/
def keyOf (docNameMap : String → Option String) (md : Metadata) : String :=
  let (docId, fileName, sourceUrl) := sourceFields docNameMap md
  jsOrStr (jsOr docId (jsOr sourceUrl fileName)) "unknown"

/-- The label  `[fileName](sourceUrl)` when both are truthy, else `fileName`,
else `unknown`. -/
def labelOf (docNameMap : String → Option String) (md : Metadata) : String :=
  let (_, fileName, sourceUrl) := sourceFields docNameMap md
  if jsStrTruthy fileName ∧ jsStrTruthy sourceUrl then
    "[" ++ fileName.getD "" ++ "](" ++ sourceUrl.getD "" ++ ")"
  else if jsStrTruthy fileName then fileName.getD ""
  else "unknown"

/-- The `for (const [doc] of results)` loop of `buildSources`: `seen` is the
set of keys already emitted, `count` the number of sources pushed so far
(the next source gets index `count + 1 = sources.length + 1`). -/
def buildSourcesLoop (docNameMap : String → Option String) :
    List (Doc × Score) → List String → ℕ → List RagSource
  | [], _, _ => []
  | (doc, _) :: rest, seen, count =>
    let key := keyOf docNameMap doc.metadata
    if seen.contains key then buildSourcesLoop docNameMap rest seen count
    else ⟨count + 1, labelOf docNameMap doc.metadata⟩ ::
      buildSourcesLoop docNameMap rest (key :: seen) (count + 1)

/-- The rendered name inside a context block: `fileName | documentId=...`
parts joined, else `unknown`. -/
def contextName (docNameMap : String → Option String) (md : Metadata) : String :=
  let (docId, fileName, _) := sourceFields docNameMap md
  let parts :=
    (match fileName with
     | some s => if s == "" then [] else [s]
     | none => []) ++
    (match docId with
     | some d => ["documentId=" ++ d]
     | none => [])
  if parts.isEmpty then "unknown" else String.intercalate " | " parts

/-- The inline context block of `buildSources`; `fmt` abstracts
`Number(score).toFixed(4)` (an exact decimal rendering of the irrational
score is not representable; no claim depends on it). -/
def buildContext (fmt : Score → String) (docNameMap : String → Option String)
    (results : List (Doc × Score)) : String :=
  String.intercalate "\n\n---\n\n"
    ((results.enum).map (fun p =>
      "### Source " ++ toString (p.1 + 1) ++ " (score=" ++ fmt p.2.2 ++ "): " ++
        contextName docNameMap p.2.1.metadata ++ "\n\n" ++ p.2.1.pageContent))

/-- `buildSources(results, docNameMap)`: the deduplicated citation list and
the (non-deduplicated) context block. -/
def buildSources (fmt : Score → String) (results : List (Doc × Score))
    (docNameMap : String → Option String) : List RagSource × String :=
  (buildSourcesLoop docNameMap results [] 0, buildContext fmt docNameMap results)

/-- `formatSourcesSection`: the trailing sources section, empty when there
are no sources. -/
def formatSourcesSection (sources : List RagSource) : String :=
  if sources.isEmpty then ""
  else "\n\nSources:\n" ++
    String.intercalate "\n"
      (sources.map (fun s => "- Source " ++ toString s.idx ++ ": " ++ s.label))

/-- Spec-side description of the dedup pass: keep each result whose key has
not been seen before, in order. -/
def dedupRowsByKey (docNameMap : String → Option String) :
    List (Doc × Score) → List String → List (Doc × Score)
  | [], _ => []
  | (doc, s) :: rest, seen =>
    let key := keyOf docNameMap doc.metadata
    if seen.contains key then dedupRowsByKey docNameMap rest seen
    else (doc, s) :: dedupRowsByKey docNameMap rest (key :: seen)

/-- Spec-side description of the citation list: one `Source` per first-seen
key, indices consecutive from 1. -/
def sourcesSpec (docNameMap : String → Option String) (results : List (Doc × Score)) :
    List RagSource :=
  (dedupRowsByKey docNameMap results []).enum.map
    (fun p => ⟨p.1 + 1, labelOf docNameMap p.2.1.metadata⟩)

/-! ## Generation provider (src/services/llmProvider.ts, openaiWebSearch.ts) -/

/-- The provider enum. -/
inductive LLMProvider where
  | openai
  | gemini
  | anthropic
deriving DecidableEq

/-- The generation configuration row (absent / SQL-null fields are `none`). -/
structure AIConfig where
  llmProvider : Option LLMProvider := none
  model : Option String := none
  temperature : Option ℚ := none
  maxTokens : Option ℚ := none
  topP : Option ℚ := none
  topK : Option ℚ := none
  frequencyPenalty : Option ℚ := none
  presencePenalty : Option ℚ := none
  stopSequences : Option (List String) := none
deriving DecidableEq

/-- The code's notion of a reasoning-family model: `/^gpt-5/i.test(model)`,
i.e. the lower-cased model name starts with `gpt-5` (stated on the character
list so that it evaluates; ASCII lower-casing agrees with JS). -/
def isGpt5Family (model : String) : Bool :=
  List.isPrefixOf "gpt-5".data (model.data.map Char.toLower)

/-- The `ChatOpenAI` constructor arguments assembled by
`LLMProviderService.getLLM` in its OpenAI branch (a `none` field models a
parameter left unset). -/
structure OpenAIChatParams where
  openAIApiKey : String
  model : String
  temperature : Option ℚ := none
  maxTokens : Option ℚ := none
  topP : Option ℚ := none
  frequencyPenalty : Option ℚ := none
  presencePenalty : Option ℚ := none
  stop : Option (List String) := none
deriving DecidableEq

/-- The OpenAI branch of `LLMProviderService.getLLM`: provider defaults and
the gpt-5 temperature guard
(`if (!isGpt5Family && config.temperature !== null && !== undefined)`). -/
def buildOpenAIChatParams (config : AIConfig) (apiKey : String) : OpenAIChatParams :=
  let model := jsOrStr config.model "gpt-4o"
  { openAIApiKey := apiKey
    model := model
    temperature :=
      if !(isGpt5Family model) && config.temperature.isSome then config.temperature else none
    maxTokens := config.maxTokens
    topP := config.topP
    frequencyPenalty := config.frequencyPenalty
    presencePenalty := config.presencePenalty
    stop := config.stopSequences }

/-- A URL citation extracted from the web-search response. -/
structure UrlCitation where
  url : String
  title : Option String := none
deriving DecidableEq

/-- The parameters of `openAIWebSearchAnswer`. -/
structure WebSearchParams where
  apiKey : String
  model : String
  systemRules : String
  question : String
  history : List ChatHistoryItem := []
  maxOutputTokens : Option ℚ := none
  temperature : Option ℚ := none
  topP : Option ℚ := none
  frequencyPenalty : Option ℚ := none
  presencePenalty : Option ℚ := none
  externalWebAccess : Option Bool := none

/-- A message of the Responses API request body. -/
structure WSMessage where
  role : String
  content : String
deriving DecidableEq

/-- The request body assembled by `openAIWebSearchAnswer` (`none` models a
field left `undefined`). -/
structure WSBody where
  model : String
  input : List WSMessage
  webSearchTool : Bool
  external_web_access : Option Bool
  max_output_tokens : ℚ
  temperature : Option ℚ
  top_p : Option ℚ
  frequency_penalty : Option ℚ
  presence_penalty : Option ℚ

/-- The body construction inside `openAIWebSearchAnswer`: system rules, the
last 12 history items, the wrapped user question, one `web_search` tool, and
`temperature` only for non-gpt-5 models with a numeric configured value. -/
def buildWebSearchBody (params : WebSearchParams) : WSBody :=
  { model := params.model
    input :=
      ⟨"system", params.systemRules⟩ ::
        (takeLast 12 params.history).map (fun item =>
          ⟨(match item.role with
            | .user => "user"
            | .assistant => "assistant"
            | .system => "system"), item.content⟩) ++
        [⟨"user", "USER QUESTION:\n" ++ params.question ++ "\n\nRemember: output Markdown."⟩]
    webSearchTool := true
    external_web_access := if params.externalWebAccess == some false then some false else none
    max_output_tokens := params.maxOutputTokens.getD 1200
    temperature :=
      if !(isGpt5Family params.model) && params.temperature.isSome then params.temperature
      else none
    top_p := params.topP
    frequency_penalty := params.frequencyPenalty
    presence_penalty := params.presencePenalty }

/-- The citations section rendered by `queryGlobal` from web-search
citations. -/
def citationsSection (citations : List UrlCitation) : String :=
  if citations.isEmpty then ""
  else "\n\nSources:\n" ++
    String.intercalate "\n"
      ((citations.enum).map (fun p =>
        "- Source " ++ toString (p.1 + 1) ++ ": " ++
          (if jsStrTruthy p.2.title then
            "[" ++ p.2.title.getD "" ++ "](" ++ p.2.url ++ ")"
          else p.2.url)))

/-! ## Retrieval orchestrator (RagService) -/

/-- The external collaborators and environment a `RagService` call reads.
An oracle returning `none` models a thrown exception.  `topK` is the
effective top-k, i.e. the already-clamped value of the `RAG_TOP_K`
environment variable (the clamp itself is not load-bearing for the claims);
`fmtScore` abstracts `Number(score).toFixed(4)`. -/
structure Env where
  db : DB
  embedQuery : String → Vec
  topK : ℕ
  maxInstrChars : JSNum
  docNames : List String → String → Option String
  fmtScore : Score → String
  getLLM : Option Unit
  invokeMessages : List Msg → Option String
  invokePrompt : String → Option String
  getConfig : Option AIConfig
  openaiApiKey : Option String
  webOffline : Bool
  webSearch : WebSearchParams → Option (String × List UrlCitation)

/-- The `k = 1` probe of `pickBestKnowledgeBase`: the best score of a
collection, `none` standing for `Number.NEGATIVE_INFINITY` when the
collection has no vectors. -/
def searchTop1Score (db : DB) (q : Vec) (kbId : String) : Option Score :=
  match searchRows db kbId q 1 with
  | [] => none
  | r :: _ => some (scoreOf r.embedding q)

/-- One step of the `scores.reduce` in `pickBestKnowledgeBase`:
`item.score > acc.score ? item : acc` (comparisons against negative
infinity through `obKey`). -/
def bestStep (acc : Option String × Option Score) (item : String × Option Score) :
    Option String × Option Score :=
  if obKey acc.2 < obKey item.2 then (some item.1, item.2) else acc

/-- Observable outcome of `pickBestKnowledgeBase`: the returned id plus the
number of `embedQuery` calls and the `(kbId, k)` similarity-search calls it
performed. -/
structure PickTrace where
  result : Option String
  embedCalls : ℕ
  searchCalls : List (String × ℕ)
deriving DecidableEq

/-- The multi-collection branch of `pickBestKnowledgeBase`: probe each
collection with `k = 1`, reduce to the best strictly-greater score, and
return `null` when the reduction kept no collection or no finite score
(`!best.kbId || !Number.isFinite(best.score) || best.score === -Infinity`;
in the exact model every produced score is finite, and `none` plays the
role of negative infinity). -/
def pickBestCore (db : DB) (qv : Vec) (uniqueKbIds : List String) : Option String :=
  let scores := uniqueKbIds.map (fun kbId => (kbId, searchTop1Score db qv kbId))
  let best := scores.foldl bestStep (none, none)
  match best.1 with
  | none => none
  | some kb =>
    if kb == "" then none
    else match best.2 with
      | none => none
      | some _ => some kb

/-- `RagService.pickBestKnowledgeBase`: dedup ids and drop falsy ones; zero
ids give `null`; one id is returned outright; otherwise embed once and pick
the best-scoring collection (`pickBestCore`). -/
def pickBestKnowledgeBase (db : DB) (embedQuery : String → Vec)
    (kbIds : List String) (question : String) : PickTrace :=
  let uniqueKbIds := uniqueTruthy kbIds
  if uniqueKbIds.length = 0 then ⟨none, 0, []⟩
  else if uniqueKbIds.length = 1 then ⟨some (uniqueKbIds.headD ""), 0, []⟩
  else
    let queryVector := embedQuery question
    ⟨pickBestCore db queryVector uniqueKbIds, 1,
      uniqueKbIds.map (fun kbId => (kbId, 1))⟩

/-- The per-collection candidate count of `queryAcrossKnowledgeBases`:
`Math.min(8, Math.max(2, Math.ceil((topK * 2) / uniqueKbIds.length)))`. -/
def perKbK (topK n : ℕ) : ℕ :=
  min 8 (max 2 ⌈((topK : ℚ) * 2) / (n : ℚ)⌉₊)

/-- The per-collection fetch of `queryAcrossKnowledgeBases`: a similarity
search whose results are tagged with the collection id when the chunk
metadata has no `kbId` key yet. -/
def taggedSearch (db : DB) (q : Vec) (k : ℕ) (kbId : String) : List (Doc × Score) :=
  (similaritySearchVectorWithScore db kbId q k).map (fun p =>
    if p.1.metadata.kbId = none then
      ({ p.1 with metadata := { p.1.metadata with kbId := some kbId } }, p.2)
    else p)

/-- The JS sort comparator `(a, b) => b[1] - a[1]` as a relation: `a` may
come before `b` when its score is at least as large. -/
def scoreGe (a b : Doc × Score) : Prop :=
  scoreKey b.2 ≤ scoreKey a.2

instance : DecidableRel scoreGe := fun a b =>
  inferInstanceAs (Decidable (scoreKey b.2 ≤ scoreKey a.2))

instance : IsTotal (Doc × Score) scoreGe :=
  ⟨fun a b => (le_total (scoreKey b.2) (scoreKey a.2)).imp id id⟩

instance : IsTrans (Doc × Score) scoreGe :=
  ⟨fun _ _ _ hab hbc => le_trans hbc hab⟩

/-- The merge stage of `queryAcrossKnowledgeBases` (part_008 lines 423-444):
fetch `perKbK` candidates per deduplicated collection, flatten, sort by
score descending, keep the global top `topK`. -/
def mergedCandidates (db : DB) (kbIds : List String) (q : Vec) (topK : ℕ) :
    List (Doc × Score) :=
  let uniqueKbIds := uniqueTruthy kbIds
  let k := perKbK topK uniqueKbIds.length
  let perKbResults := uniqueKbIds.map (fun kbId => taggedSearch db q k kbId)
  (List.insertionSort scoreGe perKbResults.flatten).take topK

/-- `RagService.queryGlobal` (part_008 lines 496-571). -/
def queryGlobal (env : Env) (question : String) (promptInstructions : Option String)
    (historyRaw : Option (List ChatHistoryItem)) : Option String :=
  let trimmedInstructions := trimInstructions
    (match promptInstructions with
     | some s => some s
     | none => some GLOBAL_FALLBACK_PROMPT_INSTRUCTIONS)
    env.maxInstrChars
  let systemRules := buildGlobalSystemRules trimmedInstructions
  match env.getConfig with
  | none => none
  | some cfg =>
    let provider := match cfg.llmProvider with
      | some p => p
      | none => .openai
    let modelName := jsOrStr cfg.model "gpt-4o"
    if provider = .openai ∧ jsStrTruthy env.openaiApiKey then
      let history := match historyRaw with
        | some items => takeLast 12 items
        | none => []
      match env.webSearch
        { apiKey := env.openaiApiKey.getD ""
          model := modelName
          systemRules := systemRules
          question := question
          history := history
          maxOutputTokens := some (cfg.maxTokens.getD 1200)
          temperature := cfg.temperature
          topP := cfg.topP
          frequencyPenalty := cfg.frequencyPenalty
          presencePenalty := cfg.presencePenalty
          externalWebAccess := if env.webOffline then some false else none } with
      | none => none
      | some (answerMarkdown, citations) =>
        some (answerMarkdown ++ citationsSection citations)
    else
      let history := buildHistoryMessages historyRaw
      let messages := buildGlobalMessages systemRules history question
      match env.getLLM with
      | none => none
      | some _ =>
        match env.invokeMessages messages with
        | some answer => some answer
        | none =>
          let prompt := systemRules ++ "\n\n" ++ formatMessagesForPrompt history ++
            "\n\nQUESTION: " ++ question ++ "\n\nReturn Markdown MD."
          match env.invokePrompt prompt with
          | some answer => some answer
          | none => none

/-- `RagService.query` (part_008 lines 338-399): single-collection scoped
query with fallback to `queryGlobal` on empty retrieval. -/
def query (env : Env) (kbId : String) (question : String)
    (promptInstructions : Option String)
    (historyRaw : Option (List ChatHistoryItem)) : Option String :=
  let queryVector := env.embedQuery question
  let results := similaritySearchVectorWithScore env.db kbId queryVector env.topK
  if results.length = 0 then queryGlobal env question promptInstructions historyRaw
  else
    let docIds := results.filterMap (fun p =>
      if jsStrTruthy p.1.metadata.documentId then p.1.metadata.documentId else none)
    let docNameMap := env.docNames (dedupKeepFirst docIds [])
    let sourcesAndContext := buildSources env.fmtScore results docNameMap
    let sources := sourcesAndContext.1
    let context := sourcesAndContext.2
    let trimmedInstructions := trimInstructions promptInstructions env.maxInstrChars
    let systemRules := buildSystemRules trimmedInstructions
    let history := buildHistoryMessages historyRaw
    let messages := buildMessages systemRules history context question
    match env.getLLM with
    | none => none
    | some _ =>
      match env.invokeMessages messages with
      | some answer => some (answer ++ formatSourcesSection sources)
      | none =>
        let prompt := systemRules ++ "\n\n" ++ formatMessagesForPrompt history ++
          "\n\nCONTEXT:\n\n" ++ context ++ "\n\nQUESTION: " ++ question ++
          "\n\nReturn Markdown MD."
        match env.invokePrompt prompt with
        | some answer => some (answer ++ formatSourcesSection sources)
        | none => none

/-- A minimal concrete environment used to witness the orchestrator
theorems: an empty table and trivially-answering oracles. -/
def sampleEnv : Env :=
  { db := []
    embedQuery := fun _ => []
    topK := 4
    maxInstrChars := .finite 6000
    docNames := fun _ _ => none
    fmtScore := fun _ => "0.0000"
    getLLM := some ()
    invokeMessages := fun _ => some "A"
    invokePrompt := fun _ => some "A"
    getConfig := some {}
    openaiApiKey := none
    webOffline := false
    webSearch := fun _ => none }

/-! ## Helper lemmas -/

theorem trimInstructions_some_pos (s : String) (m : ℚ) (hs : s ≠ "") (hm : 0 < m) :
    trimInstructions (some s) (.finite m) = some (jsSlice s (⌊m⌋).toNat) := by
  simp [trimInstructions, JSNum.isFinite, JSNum.le0, JSNum.truncToNat, hs, hm.not_le]

theorem jsSlice_length_le (s : String) (n : ℕ) : (jsSlice s n).length ≤ n :=
  List.length_take_le n s.data

theorem bigX_ne_empty : String.mk (List.replicate 10000 'X') ≠ "" := by
  intro h
  have h2 : List.replicate 10000 'X' = ([] : List Char) := congrArg String.data h
  have h3 : (List.replicate 10000 'X').length = ([] : List Char).length :=
    congrArg List.length h2
  rw [List.length_replicate, List.length_nil] at h3
  exact absurd h3 (by decide)

/-! ## Claim theorems -/

/-- C6: `trimInstructions` returns `null` for empty input (`null` or the
empty string) and otherwise hard-truncates to at most `maxChars` characters
with no ellipsis marker; in particular a 10000-character input with
`maxChars = 6000` comes back with length exactly 6000, and a `null` input
stays `null`. -/
theorem trimInstructions_hard_cut (s : String) (n : ℕ) (j : JSNum)
    (hs : s ≠ "") (hn : 0 < n) :
    trimInstructions none j = none ∧
    trimInstructions (some "") j = none ∧
    trimInstructions (some s) (.finite (n : ℚ)) = some (jsSlice s n) ∧
    (jsSlice s n).length ≤ n ∧
    trimInstructions (some (String.mk (List.replicate 10000 'X'))) (.finite 6000)
      = some (String.mk (List.replicate 6000 'X')) ∧
    ((trimInstructions (some (String.mk (List.replicate 10000 'X')))
        (.finite 6000)).getD "").length = 6000 := by
  have hfl : ∀ m : ℕ, ((⌊((m : ℕ) : ℚ)⌋).toNat) = m := by
    intro m
    rw [Int.floor_natCast]
    exact Int.toNat_natCast m
  have h3 := trimInstructions_some_pos s (n : ℚ) hs (by exact_mod_cast hn)
  rw [hfl n] at h3
  have hc : ((6000 : ℕ) : ℚ) = (6000 : ℚ) := by norm_num
  have hbig := trimInstructions_some_pos (String.mk (List.replicate 10000 'X'))
    ((6000 : ℕ) : ℚ) bigX_ne_empty (by exact_mod_cast (by norm_num : (0 : ℕ) < 6000))
  rw [hfl 6000, hc] at hbig
  have hslice : jsSlice (String.mk (List.replicate 10000 'X')) 6000
      = String.mk (List.replicate 6000 'X') := by
    show String.mk ((List.replicate 10000 'X').take 6000) = _
    rw [List.take_replicate, min_eq_left (by norm_num : (6000 : ℕ) ≤ 10000)]
  rw [hslice] at hbig
  refine ⟨rfl, rfl, h3, jsSlice_length_le s _, hbig, ?_⟩
  rw [hbig]
  show (List.replicate 6000 'X').length = 6000
  rw [List.length_replicate]

/-- Witness for C6 at `s = "hi"`, `maxChars = 3`. -/
theorem trimInstructions_hard_cut_witness :
    ("hi" : String) ≠ "" ∧ 0 < 3 ∧
    trimInstructions (some "hi") (.finite ((3 : ℕ) : ℚ)) = some (jsSlice "hi" 3) :=
  ⟨by decide, by decide, (trimInstructions_hard_cut "hi" 3 .nan (by decide) (by decide)).2.2.1⟩

/-- C9: for a non-empty instruction string and a `maxChars` that is not a
finite number or is `≤ 0`, `trimInstructions` returns the input completely
unchanged — the character cap is only enforced for finite positive
`maxChars`. -/
theorem trimInstructions_bad_cap_identity (s : String) (j : JSNum) (hs : s ≠ "")
    (hj : j.isFinite = false ∨ j.le0 = true) :
    trimInstructions (some s) j = some s := by
  have hcond : (!j.isFinite || j.le0) = true := by
    rcases hj with h | h <;> simp [h]
  simp [trimInstructions, hs, hcond]

/-- Witness for C9 at `maxChars = -Infinity`. -/
theorem trimInstructions_bad_cap_identity_witness :
    ("abc" : String) ≠ "" ∧
    (JSNum.negInf.isFinite = false ∨ JSNum.negInf.le0 = true) ∧
    trimInstructions (some "abc") .negInf = some "abc" :=
  ⟨by decide, by decide,
    trimInstructions_bad_cap_identity "abc" .negInf (by decide) (by decide)⟩

/-- C8: the constructed model invocation omits an explicit temperature for
models of the reasoning family (the code's predicate: the model name starts
with `gpt-5`, case-insensitively), both in `LLMProviderService.getLLM`'s
OpenAI branch and in the web-search request body, while for non-reasoning
models a configured temperature is passed through. -/
theorem reasoning_family_omits_temperature (config : AIConfig) (apiKey : String)
    (params : WebSearchParams) (t : ℚ) :
    (isGpt5Family (jsOrStr config.model "gpt-4o") = true →
      (buildOpenAIChatParams config apiKey).temperature = none) ∧
    (isGpt5Family (jsOrStr config.model "gpt-4o") = false → config.temperature = some t →
      (buildOpenAIChatParams config apiKey).temperature = some t) ∧
    (isGpt5Family params.model = true → (buildWebSearchBody params).temperature = none) ∧
    (isGpt5Family params.model = false → params.temperature = some t →
      (buildWebSearchBody params).temperature = some t) := by
  refine ⟨fun h => ?_, fun h ht => ?_, fun h => ?_, fun h ht => ?_⟩
  · simp [buildOpenAIChatParams, h]
  · simp [buildOpenAIChatParams, h, ht]
  · simp [buildWebSearchBody, h]
  · simp [buildWebSearchBody, h, ht]

/-- Witness for C8 at a gpt-5 configuration with a configured temperature
and a gpt-4o web-search call. -/
theorem reasoning_family_omits_temperature_witness :
    isGpt5Family (jsOrStr (some "gpt-5-mini") "gpt-4o") = true ∧
    (buildOpenAIChatParams { model := some "gpt-5-mini", temperature := some 1 } "k").temperature
      = none ∧
    isGpt5Family "gpt-4o" = false ∧
    (buildWebSearchBody
      { apiKey := "k", model := "gpt-4o", systemRules := "", question := "",
        temperature := some 1 }).temperature = some 1 := by
  have h := reasoning_family_omits_temperature
    { model := some "gpt-5-mini", temperature := some 1 } "k"
    { apiKey := "k", model := "gpt-4o", systemRules := "", question := "",
      temperature := some 1 } 1
  exact ⟨by decide, h.1 (by decide), by decide, h.2.2.2 (by decide) rfl⟩

/-- The `isGpt5Family` checks used by the C8 witness evaluate as expected. -/
theorem isGpt5Family_eval_examples :
    isGpt5Family "GPT-5-Turbo" = true ∧ isGpt5Family "gpt-4o" = false := by decide

/-- C10: when the input list's distinct truthy collection ids reduce to a
single id, `pickBestKnowledgeBase` returns that id outright — zero embedding
calls and zero similarity searches — for every database, including one where
that collection has no indexed content. -/
theorem pickBest_single_id_no_search (db : DB) (embedQuery : String → Vec)
    (kbIds : List String) (question : String) (k : String)
    (h : uniqueTruthy kbIds = [k]) :
    pickBestKnowledgeBase db embedQuery kbIds question = ⟨some k, 0, []⟩ := by
  simp [pickBestKnowledgeBase, h]

/-- Witness for C10: a duplicated id plus a falsy id over a database with no
content at all. -/
theorem pickBest_single_id_no_search_witness :
    uniqueTruthy ["a", "a", ""] = ["a"] ∧
    pickBestKnowledgeBase [] (fun _ => []) ["a", "a", ""] "q" = ⟨some "a", 0, []⟩ :=
  ⟨by decide, pickBest_single_id_no_search [] (fun _ => []) ["a", "a", ""] "q" "a" (by decide)⟩

/-- C1 (code bug): the vector-store search does not return the top-`k`
chunks by cosine similarity.  With query vector `[3, 4]`, the collection
holds `u` with embedding `[30, 40]` (cosine similarity exactly 1) and `v`
with embedding `[4, 3]` (cosine similarity `24/25`); the SQL orders by the
Euclidean operator `<->`, so the `k = 1` search returns `v` and omits `u`
although `u`'s cosine similarity is strictly greater — and the returned
score pair is `v`'s cosine similarity, contradicting the claimed descending
cosine ranking. -/
theorem similaritySearch_euclidean_order_code_bug :
    similaritySearchVectorWithScore
        [⟨"kb1", "u", ⟨none, none, none, none⟩, [30, 40]⟩,
         ⟨"kb1", "v", ⟨none, none, none, none⟩, [4, 3]⟩] "kb1" [3, 4] 1
      = [(docOf ⟨"kb1", "v", ⟨none, none, none, none⟩, [4, 3]⟩, scoreOf [4, 3] [3, 4])] ∧
    scoreKey (scoreOf [4, 3] [3, 4]) < scoreKey (scoreOf [30, 40] [3, 4]) ∧
    (⟨"kb1", "u", ⟨none, none, none, none⟩, [30, 40]⟩ : Row) ∈
      ([⟨"kb1", "u", ⟨none, none, none, none⟩, [30, 40]⟩,
        ⟨"kb1", "v", ⟨none, none, none, none⟩, [4, 3]⟩] : DB) := by
  refine ⟨?_, ?_, ?_⟩
  · norm_num [similaritySearchVectorWithScore, searchRows, sortByDist, insertByDist,
      sqDist, docOf]
  · norm_num [scoreKey, scoreOf, dotQ, sqnorm]
  · simp

/-- C3: when the similarity search of the scoped query comes back empty,
`query` returns exactly `queryGlobal` called with identical arguments — the
empty-retrieval condition is a control-flow signal, never an error: whenever
the global tier produces an answer, so does `query`. -/
theorem query_empty_retrieval_falls_back (env : Env) (kbId question : String)
    (promptInstructions : Option String) (historyRaw : Option (List ChatHistoryItem))
    (h : searchRows env.db kbId (env.embedQuery question) env.topK = []) :
    query env kbId question promptInstructions historyRaw
      = queryGlobal env question promptInstructions historyRaw ∧
    (∀ a, queryGlobal env question promptInstructions historyRaw = some a →
      query env kbId question promptInstructions historyRaw = some a) := by
  have hres : similaritySearchVectorWithScore env.db kbId (env.embedQuery question) env.topK
      = [] := by
    rw [similaritySearchVectorWithScore, h]
    rfl
  constructor
  · simp [query, hres]
  · intro a ha
    simp [query, hres, ha]

/-- Witness for C3 over the empty sample environment. -/
theorem query_empty_retrieval_falls_back_witness :
    searchRows sampleEnv.db "kb" (sampleEnv.embedQuery "q") sampleEnv.topK = [] ∧
    (query sampleEnv "kb" "q" none none = queryGlobal sampleEnv "q" none none ∧
      (∀ a, queryGlobal sampleEnv "q" none none = some a →
        query sampleEnv "kb" "q" none none = some a)) :=
  ⟨rfl, query_empty_retrieval_falls_back sampleEnv "kb" "q" none none rfl⟩

theorem mem_insertByDist {q : Vec} {x r : Row} {l : List Row} :
    r ∈ insertByDist q x l ↔ r = x ∨ r ∈ l := by
  induction l with
  | nil => simp [insertByDist]
  | cons y ys ih =>
    by_cases h : sqDist x.embedding q < sqDist y.embedding q
    · simp [insertByDist, h]
    · simp [insertByDist, h, ih]
      tauto

theorem mem_sortByDist {q : Vec} {r : Row} {l : List Row} :
    r ∈ sortByDist q l ↔ r ∈ l := by
  induction l with
  | nil => simp [sortByDist]
  | cons x xs ih => simp [sortByDist, mem_insertByDist, ih]

theorem mem_searchRows {db : DB} {kbId : String} {q : Vec} {k : ℕ} {r : Row}
    (h : r ∈ searchRows db kbId q k) : r ∈ db ∧ r.kb_id = kbId := by
  have h1 : r ∈ sortByDist q (db.filter (fun s => s.kb_id == kbId)) :=
    List.mem_of_mem_take h
  have h2 : r ∈ db.filter (fun s => s.kb_id == kbId) := mem_sortByDist.mp h1
  have h3 := List.mem_filter.mp h2
  exact ⟨h3.1, by simpa using h3.2⟩

theorem inserted_rows_kb {kbId : String} {vectors : List Vec} {documents : List Doc}
    {r : Row}
    (h : r ∈ List.zipWith
      (fun v d => { kb_id := kbId, content := d.pageContent, metadata := d.metadata,
                    embedding := v : Row }) vectors documents) :
    r.kb_id = kbId := by
  induction vectors generalizing documents with
  | nil => simp at h
  | cons v vs ih =>
    cases documents with
    | nil => simp at h
    | cons d ds =>
      rcases (List.mem_cons).mp h with h1 | h1
      · rw [h1]
      · exact ih h1

/-- C4: collection isolation.  Every row inserted by `addVectors` carries
the inserting store's collection id; a similarity-search call only returns
rows of the searched collection; and deleting by collection or by
`(collection, document)` keeps every row of any other collection. -/
theorem collection_isolation (db : DB) (kbId documentId : String) (q : Vec) (k : ℕ)
    (vectors : List Vec) (documents : List Doc) (r : Row) :
    (r ∈ (addVectors db kbId vectors documents).drop db.length → r.kb_id = kbId) ∧
    (r ∈ searchRows db kbId q k → r ∈ db ∧ r.kb_id = kbId) ∧
    (r ∈ deleteByKnowledgeBase db kbId → r ∈ db ∧ r.kb_id ≠ kbId) ∧
    (r ∈ db → r.kb_id ≠ kbId → r ∈ deleteByKnowledgeBase db kbId) ∧
    (r ∈ deleteDocumentRows db kbId documentId → r ∈ db) ∧
    (r ∈ db → r.kb_id ≠ kbId → r ∈ deleteDocumentRows db kbId documentId) := by
  refine ⟨fun h => ?_, mem_searchRows, fun h => ?_, fun hm hne => ?_, fun h => ?_,
    fun hm hne => ?_⟩
  · rw [addVectors, List.drop_left] at h
    exact inserted_rows_kb h
  · have h2 := List.mem_filter.mp h
    refine ⟨h2.1, ?_⟩
    simpa using h2.2
  · exact List.mem_filter.mpr ⟨hm, by simpa using hne⟩
  · exact (List.mem_filter.mp h).1
  · refine List.mem_filter.mpr ⟨hm, ?_⟩
    simp [hne]

/-- Witness for C4: with a one-row table for collection `a`, deleting
collection `b` or document `(b, d)` keeps the row, and the row inserted for
`a` carries id `a`. -/
theorem collection_isolation_witness :
    ((⟨"a", "c", ⟨none, none, none, none⟩, [1]⟩ : Row) ∈
      deleteByKnowledgeBase [⟨"a", "c", ⟨none, none, none, none⟩, [1]⟩] "b") ∧
    ((⟨"a", "c", ⟨none, none, none, none⟩, [1]⟩ : Row) ∈
      deleteDocumentRows [⟨"a", "c", ⟨none, none, none, none⟩, [1]⟩] "b" "d") ∧
    (⟨"a", "c", ⟨none, none, none, none⟩, [1]⟩ : Row).kb_id = "a" := by
  have h := collection_isolation [⟨"a", "c", ⟨none, none, none, none⟩, [1]⟩] "b" "d"
    [] 0 [[1]] [⟨"c", ⟨none, none, none, none⟩⟩]
    ⟨"a", "c", ⟨none, none, none, none⟩, [1]⟩
  exact ⟨h.2.2.2.1 (by simp) (by simp), h.2.2.2.2.2 (by simp) (by simp), rfl⟩

/-- C2: for a multi-collection query over at least two distinct collection
ids, every collection is fetched with per-collection
`k = min(8, max(2, ceil(2*topK/n)))`, and the merged result set has size at
most the requested `topK` and is sorted by score in non-increasing order. -/
theorem queryAcross_merge_bounded_sorted (db : DB) (kbIds : List String) (q : Vec)
    (topK : ℕ) (_h2 : 2 ≤ (uniqueTruthy kbIds).length) :
    perKbK topK (uniqueTruthy kbIds).length
      = min 8 (max 2 ⌈(2 * (topK : ℚ)) / ((uniqueTruthy kbIds).length : ℚ)⌉₊) ∧
    (mergedCandidates db kbIds q topK).length ≤ topK ∧
    List.Sorted scoreGe (mergedCandidates db kbIds q topK) := by
  refine ⟨?_, ?_, ?_⟩
  · rw [perKbK, mul_comm ((topK : ℚ)) 2]
  · exact List.length_take_le topK _
  · exact List.Pairwise.sublist (List.take_sublist _ _)
      (List.sorted_insertionSort scoreGe _)

/-- Witness for C2 over two collection ids and `topK = 4`. -/
theorem queryAcross_merge_bounded_sorted_witness :
    2 ≤ (uniqueTruthy ["a", "b"]).length ∧
    (mergedCandidates [] ["a", "b"] [1] 4).length ≤ 4 ∧
    List.Sorted scoreGe (mergedCandidates [] ["a", "b"] [1] 4) := by
  have h := queryAcross_merge_bounded_sorted [] ["a", "b"] [1] 4 (by decide)
  exact ⟨by decide, h.2.1, h.2.2⟩

theorem buildSourcesLoop_enumFrom (docNameMap : String → Option String)
    (rs : List (Doc × Score)) : ∀ (seen : List String) (count : ℕ),
    buildSourcesLoop docNameMap rs seen count
      = (List.enumFrom count (dedupRowsByKey docNameMap rs seen)).map
          (fun p => ⟨p.1 + 1, labelOf docNameMap p.2.1.metadata⟩) := by
  induction rs with
  | nil => intro seen count; simp [buildSourcesLoop, dedupRowsByKey]
  | cons p rest ih =>
    intro seen count
    obtain ⟨doc, sc⟩ := p
    by_cases h : keyOf docNameMap doc.metadata ∈ seen
    · simp [buildSourcesLoop, dedupRowsByKey, h, ih]
    · simp [buildSourcesLoop, dedupRowsByKey, h, ih, List.enumFrom_cons]

theorem enumFrom_map_idx_range' {α : Type} (l : List α) : ∀ n : ℕ,
    (List.enumFrom n l).map (fun p => p.1 + 1) = List.range' (n + 1) l.length := by
  induction l with
  | nil => intro n; simp [List.range']
  | cons x xs ih => intro n; simp [List.enumFrom_cons, List.range', ih]

theorem dedupRowsByKey_eq_nil (docNameMap : String → Option String)
    (rs : List (Doc × Score)) : ∀ (seen : List String),
    (∀ p ∈ rs, seen.contains (keyOf docNameMap p.1.metadata) = true) →
    dedupRowsByKey docNameMap rs seen = [] := by
  induction rs with
  | nil => intro seen _; simp [dedupRowsByKey]
  | cons p rest ih =>
    intro seen h
    obtain ⟨doc, sc⟩ := p
    have hd := h (doc, sc) (List.mem_cons_self _ _)
    simp only [dedupRowsByKey, hd, if_pos]
    exact ih seen (fun p hp => h p (List.mem_cons_of_mem _ hp))

theorem keyOf_of_truthy_documentId (docNameMap : String → Option String)
    (md : Metadata) (d : String) (hmd : md.documentId = some d) (hd : d ≠ "") :
    keyOf docNameMap md = d := by
  simp [keyOf, sourceFields, jsOr, jsOrStr, jsStrTruthy, hmd, hd]

/-- C5: `buildSources` deduplicates by the first-non-empty key
`documentId → sourceUrl → fileName → "unknown"` and emits exactly one
`Source` per distinct key, in first-seen order with consecutive 1-based
indices (`sourcesSpec` is the transparent first-seen-dedup rendering of that
statement); in particular, results all sharing one truthy `documentId`
produce exactly one `Source` entry. -/
theorem buildSources_dedup_first_seen (fmt : Score → String)
    (docNameMap : String → Option String) (results : List (Doc × Score)) (d : String) :
    (buildSources fmt results docNameMap).1 = sourcesSpec docNameMap results ∧
    ((buildSources fmt results docNameMap).1).map RagSource.idx
      = List.range' 1 ((buildSources fmt results docNameMap).1).length ∧
    (results ≠ [] → d ≠ "" →
      (∀ p ∈ results, p.1.metadata.documentId = some d) →
      ((buildSources fmt results docNameMap).1).length = 1) := by
  have hmain : (buildSources fmt results docNameMap).1 = sourcesSpec docNameMap results := by
    rw [buildSources, sourcesSpec]
    exact buildSourcesLoop_enumFrom docNameMap results [] 0
  refine ⟨hmain, ?_, ?_⟩
  · rw [hmain, sourcesSpec]
    rw [List.map_map]
    have : (fun p : ℕ × (Doc × Score) => RagSource.idx ⟨p.1 + 1, labelOf docNameMap p.2.1.metadata⟩)
        = fun p : ℕ × (Doc × Score) => p.1 + 1 := rfl
    simp only [Function.comp_def]
    rw [show (List.enum (dedupRowsByKey docNameMap results []))
        = List.enumFrom 0 (dedupRowsByKey docNameMap results []) from rfl]
    rw [enumFrom_map_idx_range']
    simp [List.length_map, List.enumFrom_length]
  · intro hne hd hall
    rw [hmain, sourcesSpec]
    cases results with
    | nil => exact absurd rfl hne
    | cons p rest =>
      obtain ⟨doc, sc⟩ := p
      have hkey : keyOf docNameMap doc.metadata = d :=
        keyOf_of_truthy_documentId docNameMap doc.metadata d
          (hall (doc, sc) (List.mem_cons_self _ _)) hd
      have hrest : dedupRowsByKey docNameMap rest [keyOf docNameMap doc.metadata] = [] := by
        apply dedupRowsByKey_eq_nil
        intro p hp
        have hk2 : keyOf docNameMap p.1.metadata = d :=
          keyOf_of_truthy_documentId docNameMap p.1.metadata d
            (by
              have := hall p (List.mem_cons_of_mem _ hp)
              exact this) hd
        simp [hk2, hkey]
      simp [dedupRowsByKey, hrest]

/-- Witness for C5: two results with the same `documentId` produce exactly
one `Source` entry. -/
theorem buildSources_dedup_first_seen_witness :
    ((buildSources (fun _ => "")
      [(⟨"c1", ⟨some "D", none, none, none⟩⟩, ((1 : ℚ), (1 : ℚ))),
       (⟨"c2", ⟨some "D", none, none, none⟩⟩, ((1 : ℚ), (1 : ℚ)))]
      (fun _ => none)).1).length = 1 :=
  (buildSources_dedup_first_seen (fun _ => "")
    (fun _ => none)
    [(⟨"c1", ⟨some "D", none, none, none⟩⟩, ((1 : ℚ), (1 : ℚ))),
     (⟨"c2", ⟨some "D", none, none, none⟩⟩, ((1 : ℚ), (1 : ℚ)))]
    "D").2.2 (by simp) (by decide) (by decide)

theorem bestStep_le_self (acc : Option String × Option Score) (item : String × Option Score) :
    obKey acc.2 ≤ obKey (bestStep acc item).2 := by
  rw [bestStep]
  by_cases h : obKey acc.2 < obKey item.2
  · simpa [h] using le_of_lt h
  · simp [h]

theorem bestStep_le_item (acc : Option String × Option Score) (item : String × Option Score) :
    obKey item.2 ≤ obKey (bestStep acc item).2 := by
  rw [bestStep]
  by_cases h : obKey acc.2 < obKey item.2
  · simp [h]
  · simpa [h] using le_of_not_lt h

theorem foldl_bestStep_le (l : List (String × Option Score)) :
    ∀ acc, obKey acc.2 ≤ obKey (l.foldl bestStep acc).2 ∧
      ∀ p ∈ l, obKey p.2 ≤ obKey (l.foldl bestStep acc).2 := by
  induction l with
  | nil =>
    intro acc
    exact ⟨le_refl _, by simp⟩
  | cons x xs ih =>
    intro acc
    have h1 := (ih (bestStep acc x)).1
    refine ⟨le_trans (bestStep_le_self acc x) h1, ?_⟩
    intro p hp
    rcases List.mem_cons.mp hp with h | h
    · rw [h]
      exact le_trans (bestStep_le_item acc x) h1
    · exact (ih (bestStep acc x)).2 p h

theorem foldl_bestStep_shape (l : List (String × Option Score)) :
    ∀ acc, l.foldl bestStep acc = acc ∨
      ∃ p ∈ l, l.foldl bestStep acc = (some p.1, p.2) := by
  induction l with
  | nil =>
    intro acc
    exact Or.inl rfl
  | cons x xs ih =>
    intro acc
    rcases ih (bestStep acc x) with h | ⟨p, hp, h⟩
    · rw [List.foldl_cons, h, bestStep]
      by_cases hc : obKey acc.2 < obKey x.2
      · exact Or.inr ⟨x, List.mem_cons_self _ _, by simp [hc]⟩
      · exact Or.inl (by simp [hc])
    · exact Or.inr ⟨p, List.mem_cons_of_mem _ hp, by rw [List.foldl_cons]; exact h⟩

theorem obKey_eq_bot_iff (o : Option Score) : obKey o = ⊥ ↔ o = none := by
  cases o <;> simp [obKey]

theorem searchTop1Score_eq_none_iff (db : DB) (q : Vec) (kbId : String) :
    searchTop1Score db q kbId = none ↔ searchRows db kbId q 1 = [] := by
  rw [searchTop1Score]
  cases h : searchRows db kbId q 1 <;> simp [h]

theorem mem_uniqueTruthy_ne_empty {xs : List String} {x : String}
    (h : x ∈ uniqueTruthy xs) : x ≠ "" := by
  have := (List.mem_filter.mp h).2
  simpa using this

theorem pickBestCore_spec (db : DB) (qv : Vec) (us : List String)
    (hne : ∀ x ∈ us, x ≠ "") :
    (pickBestCore db qv us = none ↔ ∀ kb ∈ us, searchRows db kb qv 1 = []) ∧
    (∀ kb, pickBestCore db qv us = some kb →
      kb ∈ us ∧ ∀ kb2 ∈ us,
        obKey (searchTop1Score db qv kb2) ≤ obKey (searchTop1Score db qv kb)) := by
  have F1 := (foldl_bestStep_le
    (us.map (fun kbId => (kbId, searchTop1Score db qv kbId))) (none, none)).2
  have F2 := foldl_bestStep_shape
    (us.map (fun kbId => (kbId, searchTop1Score db qv kbId))) (none, none)
  rcases hB : (us.map (fun kbId => (kbId, searchTop1Score db qv kbId))).foldl
      bestStep (none, none) with ⟨b1, b2⟩
  simp only [hB, Prod.mk.injEq] at F1 F2
  have hempty_of_bot : b2 = none → ∀ kb ∈ us, searchRows db kb qv 1 = [] := by
    intro hb2 kb hkb
    have hmem := List.mem_map_of_mem (fun kbId => (kbId, searchTop1Score db qv kbId)) hkb
    have hle := F1 _ hmem
    have hbot : obKey (searchTop1Score db qv kb) = ⊥ :=
      le_bot_iff.mp (by simpa [hb2, obKey] using hle)
    exact (searchTop1Score_eq_none_iff db qv kb).mp ((obKey_eq_bot_iff _).mp hbot)
  cases b1 with
  | none =>
    have hval : pickBestCore db qv us = none := by
      simp [pickBestCore, hB]
    have hb2 : b2 = none := by
      rcases F2 with ⟨_, h⟩ | ⟨p, _, h, _⟩
      · exact h
      · exact absurd h (by simp)
    refine ⟨iff_of_true hval (hempty_of_bot hb2), ?_⟩
    intro kb hkb
    rw [hval] at hkb
    exact absurd hkb (by simp)
  | some kb0 =>
    rcases F2 with ⟨h, _⟩ | ⟨p, hp, h1, h2⟩
    · exact absurd h (by simp)
    · rcases List.mem_map.mp hp with ⟨kbm, hkbm, hpe⟩
      have hp1 : p.1 = kbm := by rw [← hpe]
      have hp2 : p.2 = searchTop1Score db qv kbm := by rw [← hpe]
      have hk : kb0 = kbm := by rw [← hp1]; exact Option.some.inj h1
      have hkmem : kb0 ∈ us := by rw [hk]; exact hkbm
      have hkne : (kb0 == "") = false := by
        simpa using hne kb0 hkmem
      cases hb2v : b2 with
      | none =>
        have hval : pickBestCore db qv us = none := by
          simp [pickBestCore, hB, hkne, hb2v]
        refine ⟨iff_of_true hval (hempty_of_bot hb2v), ?_⟩
        intro kb hkb
        rw [hval] at hkb
        exact absurd hkb (by simp)
      | some s =>
        have hval : pickBestCore db qv us = some kb0 := by
          simp [pickBestCore, hB, hkne, hb2v]
        constructor
        · rw [hval]
          constructor
          · intro hcontr
            exact absurd hcontr (by simp)
          · intro hall
            have hnone : searchTop1Score db qv kbm = none :=
              (searchTop1Score_eq_none_iff db qv kbm).mpr (hall kbm hkbm)
            rw [← hp2] at hnone
            rw [hnone] at h2
            rw [hb2v] at h2
            exact absurd h2 (by simp)
        · intro kb hkb
          rw [hval] at hkb
          have hkk : kb0 = kb := Option.some.inj hkb
          rw [← hkk]
          refine ⟨hkmem, ?_⟩
          intro kb2 hkb2
          have hmem2 := List.mem_map_of_mem
            (fun kbId => (kbId, searchTop1Score db qv kbId)) hkb2
          have hle := F1 _ hmem2
          have hgoal : obKey (searchTop1Score db qv kb2) ≤ obKey b2 := by
            simpa using hle
          rw [h2, hp2] at hgoal
          rw [hk]
          exact hgoal

/-- C7 (amended to lists with at least two distinct truthy ids; a
single-id list short-circuits, see C10): `pickBestKnowledgeBase` embeds the
question once, runs one `k = 1` search per deduplicated collection, returns
`null` exactly when every one of those collections is empty, and otherwise
returns a collection id from the list whose single best score is maximal
among all the probed collections. -/
theorem pickBest_highest_score (db : DB) (embedQuery : String → Vec)
    (kbIds : List String) (question : String)
    (h2 : 2 ≤ (uniqueTruthy kbIds).length) :
    (pickBestKnowledgeBase db embedQuery kbIds question).embedCalls = 1 ∧
    (pickBestKnowledgeBase db embedQuery kbIds question).searchCalls
      = (uniqueTruthy kbIds).map (fun kb => (kb, 1)) ∧
    ((pickBestKnowledgeBase db embedQuery kbIds question).result = none ↔
      ∀ kb ∈ uniqueTruthy kbIds, searchRows db kb (embedQuery question) 1 = []) ∧
    (∀ kb, (pickBestKnowledgeBase db embedQuery kbIds question).result = some kb →
      kb ∈ uniqueTruthy kbIds ∧
      ∀ kb2 ∈ uniqueTruthy kbIds,
        obKey (searchTop1Score db (embedQuery question) kb2)
          ≤ obKey (searchTop1Score db (embedQuery question) kb)) := by
  have hn0 : ¬ ((uniqueTruthy kbIds).length = 0) := by omega
  have hn1 : ¬ ((uniqueTruthy kbIds).length = 1) := by omega
  have hT : pickBestKnowledgeBase db embedQuery kbIds question
      = ⟨pickBestCore db (embedQuery question) (uniqueTruthy kbIds), 1,
          (uniqueTruthy kbIds).map (fun kb => (kb, 1))⟩ := by
    simp [pickBestKnowledgeBase, hn0, hn1]
  have hcore := pickBestCore_spec db (embedQuery question) (uniqueTruthy kbIds)
    (fun x hx => mem_uniqueTruthy_ne_empty hx)
  rw [hT]
  exact ⟨rfl, rfl, hcore.1, hcore.2⟩

/-- Witness for C7: two collections, only `b` has content, so the routing
returns `b`. -/
theorem pickBest_highest_score_witness :
    2 ≤ (uniqueTruthy ["a", "b"]).length ∧
    ((pickBestKnowledgeBase [⟨"b", "doc", ⟨none, none, none, none⟩, [1]⟩]
        (fun _ => [1]) ["a", "b"] "q").embedCalls = 1 ∧
      (pickBestKnowledgeBase [⟨"b", "doc", ⟨none, none, none, none⟩, [1]⟩]
        (fun _ => [1]) ["a", "b"] "q").searchCalls
        = (uniqueTruthy ["a", "b"]).map (fun kb => (kb, 1))) :=
  ⟨by decide,
    ⟨(pickBest_highest_score [⟨"b", "doc", ⟨none, none, none, none⟩, [1]⟩]
        (fun _ => [1]) ["a", "b"] "q" (by decide)).1,
      (pickBest_highest_score [⟨"b", "doc", ⟨none, none, none, none⟩, [1]⟩]
        (fun _ => [1]) ["a", "b"] "q" (by decide)).2.1⟩⟩

/-- Counterexample to C7 as frozen: with the single-element list `["a"]`
over an empty store, every collection in the list is empty, yet the function
returns `"a"`, not `null` (the single-id short-circuit precedes any
search). -/
theorem pickBest_single_empty_counterexample :
    (pickBestKnowledgeBase ([] : DB) (fun _ => []) ["a"] "q").result = some "a" ∧
    searchRows ([] : DB) "a" [] 1 = [] := by
  constructor
  · rfl
  · rfl

theorem strictMono_mul_abs : StrictMono (fun x : ℝ => x * |x|) := by
  intro x y h
  rcases le_or_lt 0 x with hx | hx
  · have hy : 0 ≤ y := le_trans hx h.le
    simp only [abs_of_nonneg hx, abs_of_nonneg hy]
    exact mul_self_lt_mul_self hx h
  · rcases le_or_lt 0 y with hy | hy
    · simp only [abs_of_neg hx, abs_of_nonneg hy]
      have h1 : x * -x < 0 := by nlinarith
      have h2 : 0 ≤ y * y := mul_self_nonneg y
      linarith
    · simp only [abs_of_neg hx, abs_of_neg hy]
      nlinarith

theorem scoreKey_cast_eq (s : Score) (hp : 0 < s.2) :
    ((scoreKey s : ℚ) : ℝ)
      = ((s.1 : ℝ) / Real.sqrt (s.2 : ℝ)) * |(s.1 : ℝ) / Real.sqrt (s.2 : ℝ)| := by
  have hpR : (0 : ℝ) < (s.2 : ℝ) := by exact_mod_cast hp
  have hs : (0 : ℝ) < Real.sqrt (s.2 : ℝ) := Real.sqrt_pos.mpr hpR
  have hss : Real.sqrt (s.2 : ℝ) * Real.sqrt (s.2 : ℝ) = (s.2 : ℝ) :=
    Real.mul_self_sqrt hpR.le
  rw [abs_div, abs_of_nonneg hs.le, div_mul_div_comm, hss]
  rcases le_or_lt 0 s.1 with h1 | h1
  · have h1R : (0 : ℝ) ≤ (s.1 : ℝ) := by exact_mod_cast h1
    rw [scoreKey, if_pos h1, abs_of_nonneg h1R]
    push_cast
    ring
  · have h1R : (s.1 : ℝ) < 0 := by exact_mod_cast h1
    rw [scoreKey, if_neg (not_le.mpr h1), abs_of_neg h1R]
    push_cast
    ring

/-- The rational comparison key used throughout the development agrees with
the real-valued cosine-similarity score `d / sqrt p` it represents: for
scores with positive radicand, comparing keys compares the real scores. -/
theorem scoreKey_lt_iff_real (a b : Score) (ha : 0 < a.2) (hb : 0 < b.2) :
    (scoreKey a < scoreKey b ↔
      (a.1 : ℝ) / Real.sqrt (a.2 : ℝ) < (b.1 : ℝ) / Real.sqrt (b.2 : ℝ)) := by
  have hcast : scoreKey a < scoreKey b ↔ ((scoreKey a : ℝ) < (scoreKey b : ℝ)) := by
    exact_mod_cast Iff.rfl
  rw [hcast, scoreKey_cast_eq a ha, scoreKey_cast_eq b hb]
  exact strictMono_mul_abs.lt_iff_lt
